import Mathlib

/-!
Shallow embedding of the transcription-orchestration controller of the
audiotext repository: src/controllers/main_controller.py together with
src/utils/constants.py.  External libraries (whisperx, pydub,
speech_recognition, pytube, tkinter dialogs) are modelled as oracle data
passed to each operation; the controller logic itself is translated
line by line.  Machine effects are made explicit: the filesystem is a
map from paths to file contents, calls into the view are recorded as an
event list, and Python exceptions are `Except` values that carry the
state at the point of the raise.
-/

namespace Audiotext

/-- From src/utils/constants.py: `AUDIO_FILE_EXTENSIONS`. -/
def AUDIO_FILE_EXTENSIONS : List String :=
  [".mp3", ".mpeg", ".wav", ".wma", ".aac", ".flac", ".ogg", ".oga", ".opus"]

/-- From src/utils/constants.py: `VIDEO_FILE_EXTENSIONS`. -/
def VIDEO_FILE_EXTENSIONS : List String :=
  [".mp4", ".m4a", ".m4v", ".f4v", ".f4a", ".m4b", ".m4r", ".f4b", ".mov",
   ".avi", ".webm", ".flv", ".mkv",
   ".3gp", ".3gp2", ".3g2", ".3gpp", ".3gpp2",
   ".ogv", ".ogx", ".wmv", ".asf"]

/-- Models `utils.enums.AudioSource`. -/
inductive AudioSource where
  | FILE
  | DIRECTORY
  | MIC
  | YOUTUBE
deriving DecidableEq, Repr

/-- Models `utils.enums.TranscriptionMethod`. -/
inductive TranscriptionMethod where
  | WHISPERX
  | GOOGLE_API
deriving DecidableEq, Repr

/-- A filesystem path, split the way `pathlib.Path` exposes it to the
controller: parent directory, stem and suffix (extension with dot). -/
structure PathV where
  dir : String
  stem : String
  ext : String
deriving DecidableEq, Repr

/-- The filesystem contents: a map from paths to file contents. -/
abbrev FS := PathV → Option String

def fsEmpty : FS := fun _ => none

def fsRead (fs : FS) (p : PathV) : Option String := fs p

/-- Models `open(path, "w").write(content)`. -/
def fsWrite (fs : FS) (p : PathV) (content : String) : FS :=
  fun q => if q = p then some content else fs q

/-- Models `path.unlink()`. -/
def fsErase (fs : FS) (p : PathV) : FS :=
  fun q => if q = p then none else fs q

/-- Models `models.transcription.Transcription`: the mutable request record. -/
structure Transcription where
  source : AudioSource
  source_path : PathV
  youtube_url : String
  method : TranscriptionMethod
  language_code : String
  should_translate : Bool
  should_subtitle : Bool
  should_autosave : Bool
  should_overwrite : Bool
  text : String
deriving DecidableEq, Repr

/-- The result object produced by the external whisperx library: the
fields the controller touches (the `language` key it mutates) plus the
opaque payloads the subtitle writers would render for each format. -/
structure WhisperxResult where
  language : String
  srtOutput : String
  vttOutput : String
deriving DecidableEq, Repr

/-- One call into the abstract view (the presentation boundary). -/
inductive ViewEvent where
  | processing
  | processed (success : Bool)
  | displayText (s : String)
  | selectPathSuccess (p : PathV)
deriving DecidableEq, Repr

/-- The controller state: the shared `Transcription` record, the
`_whisperx_result` field, the filesystem, whether the fixed-name
`audio-chunks` temporary directory currently exists, and the calls made
to the view so far. -/
structure CState where
  transcription : Transcription
  whisperx_result : Option WhisperxResult
  fs : FS
  chunksDirPresent : Bool
  events : List ViewEvent

/-- Models `_handle_exception`: log (dropped), notify failure, display the
message. -/
def handleException (st : CState) (msg : String) : CState :=
  { st with events := st.events ++ [ViewEvent.processed false, ViewEvent.displayText msg] }

/-- Python `str.strip()` on segment text. -/
def pyStrip (s : String) : String := s.trim

/-- Python `str.capitalize()`: first character uppercased, the rest
lowercased. -/
def pyCapitalize (s : String) : String :=
  match s.data with
  | [] => ""
  | c :: cs => String.mk (c.toUpper :: cs.map Char.toLower)

/-- The per-chunk loop of `_transcribe_using_google_api`: each chunk is
either recognized (`some text`) or raises inside recognition (`none`),
in which case the `except: continue` drops it; a recognized chunk is
capitalized, suffixed with the trailing separator and appended to the
accumulator. -/
def googleChunkLoop : List (Option String) → String → String
  | [], acc => acc
  | none :: rest, acc => googleChunkLoop rest acc
  | some t :: rest, acc => googleChunkLoop rest (acc ++ (pyCapitalize t ++ ". "))

/-- Spec-side description of the cloud-API text (for the refinement
theorem): the in-order concatenation of each successful chunk's
capitalized text followed by the trailing separator. -/
def specGoogleText (chunks : List (Option String)) : String :=
  String.join (chunks.filterMap (fun c => c.map (fun t => pyCapitalize t ++ ". ")))

/-- Outcome of the externally-performed part of the cloud-API backend:
either some exception escaped the decode/split/export-loop inside the
`try` block, or the loop ran to completion with a per-chunk recognition
outcome for every chunk. -/
inductive GoogleOutcome where
  | raised
  | chunks (results : List (Option String))
deriving Repr

def tracebackMsg : String := "traceback"

/-- Models `_transcribe_using_google_api`: creates the fixed-name chunks
directory, runs the decode/split/recognition loop inside `try`, prints
the traceback on an escaping exception, and in `finally` removes the
chunks directory and displays the text for non-directory sources when
it is non-empty. -/
def transcribeUsingGoogleApi (st : CState) (w : GoogleOutcome) : CState :=
  let st0 := { st with chunksDirPresent := true }
  let st1 :=
    match w with
    | GoogleOutcome.raised =>
        { st0 with events := st0.events ++ [ViewEvent.displayText tracebackMsg] }
    | GoogleOutcome.chunks results =>
        { st0 with transcription := { st0.transcription with text := googleChunkLoop results "" } }
  let st2 := { st1 with chunksDirPresent := false }
  if st2.transcription.text ≠ "" ∧ st2.transcription.source ≠ AudioSource.DIRECTORY then
    { st2 with events := st2.events ++ [ViewEvent.displayText st2.transcription.text] }
  else st2

/-- Oracle data for one `_transcribe_using_whisperx` call: the segments
of the transcribe step (`none` when load/decode raises), the raw result
object, and the align step's result (`none` when align raises; only
consulted when subtitles were requested). -/
structure WhisperxWorld where
  transcribeResult : Option (List String)
  rawResult : WhisperxResult
  alignResult : Option WhisperxResult
deriving Repr

def whisperxErrMsg : String := "whisperx error"

/-- Tail of `_transcribe_using_whisperx`: store the combined text in the
record, then display it unless the source is a directory. -/
def finishWhisperx (st : CState) (textCombined : String) : CState :=
  let st1 := { st with transcription := { st.transcription with text := textCombined } }
  if st1.transcription.source ≠ AudioSource.DIRECTORY then
    { st1 with events := st1.events ++ [ViewEvent.displayText st1.transcription.text] }
  else st1

/-- Models `_transcribe_using_whisperx`: load/transcribe, join the stripped
segment texts with single spaces, optionally align (when subtitles were
requested), store the text and display it.  Every exception inside the
`try` is handled by `_handle_exception`, so the call never raises
outward; on failure the record's `text` is left untouched. -/
def transcribeUsingWhisperx (st : CState) (w : WhisperxWorld) : CState :=
  match w.transcribeResult with
  | none => handleException st whisperxErrMsg
  | some segs =>
    let st1 := { st with whisperx_result := some w.rawResult }
    let textCombined := String.intercalate " " (segs.map pyStrip)
    if st1.transcription.should_subtitle then
      match w.alignResult with
      | none => handleException st1 whisperxErrMsg
      | some aligned =>
          finishWhisperx { st1 with whisperx_result := some aligned } textCombined
    else
      finishWhisperx st1 textCombined

/-- The state a computation finished in, whether it returned or raised. -/
def resState : Except CState CState → CState
  | Except.ok s => s
  | Except.error s => s

def isExceptError : Except CState CState → Bool
  | Except.ok _ => false
  | Except.error _ => true

/-- What the external whisperx writer would emit for one format. -/
def subtitleRender (r : WhisperxResult) (fmt : String) : String :=
  if fmt = "srt" then r.srtOutput else r.vttOutput

/-- One iteration of the loop in `_generate_subtitles`: check the
overwrite policy for this format's output path, and if a write is due,
mutate `_whisperx_result["language"]` and run the writer.  When
`_whisperx_result` is `None` (cloud-API backend), the subscript
assignment raises a `TypeError` before any file is written. -/
def writeSubtitleFormat (st : CState) (p : PathV) (fmt : String) (should_overwrite : Bool) :
    Except CState CState :=
  let target : PathV := { dir := p.dir, stem := p.stem, ext := "." ++ fmt }
  if should_overwrite || (fsRead st.fs target).isNone then
    match st.whisperx_result with
    | none => Except.error st
    | some r =>
        let r2 := { r with language := "en" }
        Except.ok { st with
          whisperx_result := some r2,
          fs := fsWrite st.fs target (subtitleRender r2 fmt) }
  else Except.ok st

/-- Models `_generate_subtitles`: loop over the two output formats. -/
def generateSubtitles (st : CState) (p : PathV) (should_overwrite : Bool) :
    Except CState CState :=
  match writeSubtitleFormat st p "srt" should_overwrite with
  | Except.error s => Except.error s
  | Except.ok st1 => writeSubtitleFormat st1 p "vtt" should_overwrite

/-- The destination of `save_transcription`: the sibling `.txt` path on
autosave, otherwise the interactive dialog's answer (`none` when the
user cancelled, i.e. the dialog returned an empty string). -/
def destOf (file_path : PathV) (should_autosave : Bool) (dialogResult : Option PathV) :
    Option PathV :=
  if should_autosave then
    some { dir := file_path.dir, stem := file_path.stem, ext := ".txt" }
  else dialogResult

/-- Lines 161-163 of `save_transcription`: write the record's text to
the destination when overwriting is allowed or the destination does not
exist yet. -/
def saveWriteStep (st : CState) (txtPath : PathV) (should_overwrite : Bool) : CState :=
  if should_overwrite || (fsRead st.fs txtPath).isNone then
    { st with fs := fsWrite st.fs txtPath st.transcription.text }
  else st

/-- Lines 165-166 of `save_transcription`: generate subtitles when the
record requests them. -/
def saveSubtitleStep (st1 : CState) (txtPath : PathV) (should_overwrite : Bool) :
    Except CState CState :=
  if st1.transcription.should_subtitle then
    generateSubtitles st1 txtPath should_overwrite
  else Except.ok st1

/-- Models `save_transcription`: derive the destination (sibling `.txt` on
autosave, otherwise the interactive dialog's answer, `none` when the
user cancelled), return silently on an empty destination, write the
record's text when the overwrite policy allows, then generate subtitles
when requested. -/
def saveTranscription (st : CState) (file_path : PathV)
    (should_autosave should_overwrite : Bool) (dialogResult : Option PathV) :
    Except CState CState :=
  match destOf file_path should_autosave dialogResult with
  | none => Except.ok st
  | some txtPath =>
    saveSubtitleStep (saveWriteStep st txtPath should_overwrite) txtPath should_overwrite

/-- Oracle data for one `_transcribe_file` call. -/
structure FileWorld where
  wx : WhisperxWorld
  g : GoogleOutcome
deriving Repr

/-- Lines 119-122 of `_transcribe_file`: dispatch on the method. -/
def backendStep (st : CState) (w : FileWorld) : CState :=
  if st.transcription.method = TranscriptionMethod.WHISPERX then
    transcribeUsingWhisperx st w.wx
  else if st.transcription.method = TranscriptionMethod.GOOGLE_API then
    transcribeUsingGoogleApi st w.g
  else st

/-- Lines 124-125 of `_transcribe_file`: remove the temporary input
file for MIC/YOUTUBE sources. -/
def unlinkStep (st1 : CState) : CState :=
  if st1.transcription.source = AudioSource.MIC ∨
      st1.transcription.source = AudioSource.YOUTUBE then
    { st1 with fs := fsErase st1.fs st1.transcription.source_path }
  else st1

/-- Models `_transcribe_file`: backend, temp-file removal, then autosave when
requested.  The backends never raise outward; the autosave can (through
`_generate_subtitles`). -/
def transcribeFile (st : CState) (file_path : PathV) (w : FileWorld) :
    Except CState CState :=
  let st2 := unlinkStep (backendStep st w)
  if st2.transcription.should_autosave then
    saveTranscription st2 file_path true st2.transcription.should_overwrite none
  else Except.ok st2

/-- Models `asyncio.gather` over the per-file coroutines: the coroutines never
suspend, so they run to completion in order; a raising task does not
stop the later ones, and `gather` re-raises afterwards (the Bool records
whether some task raised). -/
def runTasks : CState → List (PathV × FileWorld) → CState × Bool
  | st, [] => (st, false)
  | st, t :: rest =>
    match transcribeFile st t.1 t.2 with
    | Except.ok st' =>
        let r := runTasks st' rest
        (r.1, r.2)
    | Except.error st' =>
        let r := runTasks st' rest
        (r.1, true)

def pathToString (p : PathV) : String := p.dir ++ "/" ++ p.stem ++ p.ext

def dirSuccessMsg (p : PathV) : String :=
  "Files from " ++ pathToString p ++ " successfully transcribed."

def emptyDirMsg : String :=
  "Error: The directory path is invalid or does not contain valid file types to transcribe. Please choose another one."

def gatherErrMsg : String := "task error"

/-- Models `_handle_transcription_process`: for a DIRECTORY source run every
per-file task and display the directory success message, raising when
the file list is empty; for other sources transcribe the single resolved
file.  Any exception is handled by `_handle_exception`, and the
`finally` block always notifies the view once more, passing
`is_transcription_empty` as the `success` flag exactly as the code
does. -/
def handleTranscriptionProcess (st : CState) (tasks : List (PathV × FileWorld))
    (w : FileWorld) : CState :=
  let path := st.transcription.source_path
  let step : CState × Bool × String :=
    if st.transcription.source = AudioSource.DIRECTORY then
      if tasks.isEmpty then (st, true, emptyDirMsg)
      else
        let r := runTasks st tasks
        if r.2 then (r.1, true, gatherErrMsg)
        else
          ({ r.1 with events := r.1.events ++ [ViewEvent.displayText (dirSuccessMsg path)] },
            false, "")
    else
      match transcribeFile st path w with
      | Except.ok st' => (st', false, "")
      | Except.error st' => (st', true, gatherErrMsg)
  let st1 := step.1
  let raised := step.2.1
  let msg := step.2.2
  let st2 := if raised then handleException st1 msg else st1
  { st2 with events := st2.events ++ [ViewEvent.processed (st2.transcription.text == "")] }

/-- Whether a `prepare` entry point raised before spawning background
work, or spawned the background thread. -/
inductive PrepareOutcome where
  | spawned
  | raisedSync
deriving DecidableEq, Repr

/-- Models `_prepare_for_directory_files_transcription`: store the directory
path in the record and spawn the background thread unconditionally; no
validation happens here. -/
def prepareForDirectoryFilesTranscription (st : CState) (dir_path : PathV) :
    CState × PrepareOutcome :=
  ({ st with transcription := { st.transcription with source_path := dir_path } },
    PrepareOutcome.spawned)

/-- Models `_is_file_valid`. -/
def isFileValid (exists_ : Bool) (p : PathV) : Bool :=
  exists_ &&
    ((AUDIO_FILE_EXTENSIONS.contains p.ext) || (VIDEO_FILE_EXTENSIONS.contains p.ext))

-- A directory tree: the files directly inside, and the named
-- subdirectories.
mutual
inductive DirTree where
  | mk : List String → DirForest → DirTree

inductive DirForest where
  | nil : DirForest
  | cons : String → DirTree → DirForest → DirForest
end

-- The functions below model `os.walk` (top-down): every directory of
-- the tree paired with the plain file names directly inside it.
mutual
def osWalk (root : String) : DirTree → List (String × List String)
  | DirTree.mk files subdirs => (root, files) :: osWalkForest root subdirs

def osWalkForest (root : String) : DirForest → List (String × List String)
  | DirForest.nil => []
  | DirForest.cons name t rest =>
      osWalk (root ++ "/" ++ name) t ++ osWalkForest root rest
end

-- Independent enumeration of every file of the tree, at any depth,
-- paired with the directory it lives in (used as the specification
-- side of the directory-scan theorem).
mutual
def allFiles (root : String) : DirTree → List (String × String)
  | DirTree.mk files subdirs =>
      files.map (fun f => (root, f)) ++ allFilesForest root subdirs

def allFilesForest (root : String) : DirForest → List (String × String)
  | DirForest.nil => []
  | DirForest.cons name t rest =>
      allFiles (root ++ "/" ++ name) t ++ allFilesForest root rest
end

/-- Python `str.endswith`: the argument is a suffix of the string. -/
def pyEndsWith (s suffix : String) : Bool :=
  suffix.data.isSuffixOf s.data

/-- Models `any(file.endswith(ext) for ext in matching_extensions)`. -/
def matchesExtension (file : String) : Bool :=
  (AUDIO_FILE_EXTENSIONS ++ VIDEO_FILE_EXTENSIONS).any (fun ext => pyEndsWith file ext)

/-- Inner loop of `_get_transcribable_files_from_dir` over the files of
one directory. -/
def collectFromFiles (root : String) : List String → List (String × String)
  | [] => []
  | f :: rest =>
      (if matchesExtension f then [(root, f)] else []) ++ collectFromFiles root rest

/-- Outer loop of `_get_transcribable_files_from_dir` over the `os.walk`
output. -/
def collectFromWalk : List (String × List String) → List (String × String)
  | [] => []
  | (root, files) :: rest => collectFromFiles root files ++ collectFromWalk rest

/-- Models `_get_transcribable_files_from_dir`. -/
def getTranscribableFilesFromDir (root : String) (t : DirTree) : List (String × String) :=
  collectFromWalk (osWalk root t)

def isProcessedEvent : ViewEvent → Bool
  | ViewEvent.processed _ => true
  | ViewEvent.processing => false
  | ViewEvent.displayText _ => false
  | ViewEvent.selectPathSuccess _ => false

/-- How many times `on_processed_transcription` has been called. -/
def countProcessed (evs : List ViewEvent) : Nat :=
  (evs.filter isProcessedEvent).length

/-- Two request records that agree on everything except possibly the
accumulated text (used to state frame lemmas: the operations of the
pipeline only ever rewrite `text`). -/
def sameMeta (a b : Transcription) : Prop :=
  a.source = b.source ∧ a.source_path = b.source_path ∧ a.method = b.method
    ∧ a.should_subtitle = b.should_subtitle ∧ a.should_autosave = b.should_autosave
    ∧ a.should_overwrite = b.should_overwrite

/-! Concrete requests used to evaluate the model at specific inputs. -/

def emptyWxResult : WhisperxResult :=
  { language := "", srtOutput := "", vttOutput := "" }

/-- A whisperx invocation whose load/transcribe step raises. -/
def wxFailWorld : WhisperxWorld :=
  { transcribeResult := none, rawResult := emptyWxResult, alignResult := none }

/-- A cloud-API invocation that recognizes one chunk as "hello". -/
def exGoogleWorld : GoogleOutcome := GoogleOutcome.chunks [some "hello"]

def exFileWorld : FileWorld := { wx := wxFailWorld, g := exGoogleWorld }

/-- A cloud-API invocation that produced no chunks at all. -/
def emptyChunksWorld : FileWorld :=
  { wx := wxFailWorld, g := GoogleOutcome.chunks [] }

def baseTranscription : Transcription :=
  { source := AudioSource.FILE
    source_path := { dir := ".", stem := "input", ext := ".wav" }
    youtube_url := ""
    method := TranscriptionMethod.GOOGLE_API
    language_code := "en"
    should_translate := false
    should_subtitle := false
    should_autosave := false
    should_overwrite := false
    text := "" }

def baseState : CState :=
  { transcription := baseTranscription
    whisperx_result := none
    fs := fsEmpty
    chunksDirPresent := false
    events := [] }

def exPath : PathV := { dir := "/music", stem := "a", ext := ".mp3" }

/-- A FILE request over the cloud-API backend (used to evaluate the
success flag of the completion notification). -/
def c1SuccessState : CState := baseState

/-- A DIRECTORY request over the local-model backend. -/
def c3DirState : CState :=
  { baseState with
    transcription := { baseTranscription with
      source := AudioSource.DIRECTORY
      method := TranscriptionMethod.WHISPERX } }

/-- A directory containing two files, neither of which carries an
audio/video extension. -/
def c4Tree : DirTree := DirTree.mk ["readme.md", "notes.pdf"] DirForest.nil

def c4DirPath : PathV := { dir := "/", stem := "music", ext := "" }

/-- A DIRECTORY request (backend selection irrelevant to the prepare
step). -/
def c4State : CState :=
  { baseState with
    transcription := { baseTranscription with source := AudioSource.DIRECTORY } }

/-- A DIRECTORY request over the cloud-API backend, subtitles off. -/
def c3gState : CState :=
  { baseState with
    transcription := { baseTranscription with source := AudioSource.DIRECTORY } }

/-- The controller state right after a cloud-API transcription that
produced text, with subtitles requested: `_whisperx_result` is `None`. -/
def c2State : CState :=
  { baseState with
    transcription := { baseTranscription with
      should_subtitle := true
      text := "Some text. " } }

/-- A directory member whose whisperx transcription fails while the
shared record still holds a previous file's text, with autosave on. -/
def c9State : CState :=
  { baseState with
    transcription := { baseTranscription with
      source := AudioSource.DIRECTORY
      method := TranscriptionMethod.WHISPERX
      should_autosave := true
      should_overwrite := true
      text := "leftover text" } }

def micPath : PathV := { dir := ".", stem := "mic-output", ext := ".wav" }

/-- A MIC request whose temporary audio file is present on disk. -/
def micState : CState :=
  { baseState with
    transcription := { baseTranscription with
      source := AudioSource.MIC
      source_path := micPath }
    fs := fsWrite fsEmpty micPath "AUDIO" }

def c6Dest : PathV := { dir := "/music", stem := "a", ext := ".txt" }

/-- A state whose filesystem already holds an old transcript at the
autosave destination of `exPath`. -/
def c6State : CState :=
  { baseState with
    transcription := { baseTranscription with text := "new text" }
    fs := fsWrite fsEmpty c6Dest "old text" }

/-! ## Helper lemmas -/

theorem string_foldl_append (l : List String) (a b : String) :
    List.foldl (fun r s => r ++ s) (a ++ b) l
      = a ++ List.foldl (fun r s => r ++ s) b l := by
  induction l generalizing b with
  | nil => simp
  | cons x xs ih =>
      simp only [List.foldl_cons, String.append_assoc]
      exact ih (b ++ x)

theorem string_join_cons (s : String) (l : List String) :
    String.join (s :: l) = s ++ String.join l := by
  unfold String.join
  have h := string_foldl_append l s ""
  rw [String.append_empty] at h
  simpa using h

/-- The accumulator loop of the cloud-API backend computes the spec-side
concatenation. -/
theorem googleChunkLoop_spec (chunks : List (Option String)) (acc : String) :
    googleChunkLoop chunks acc = acc ++ specGoogleText chunks := by
  induction chunks generalizing acc with
  | nil => simp [googleChunkLoop, specGoogleText, String.join]
  | cons c rest ih =>
      cases c with
      | none =>
          simp only [googleChunkLoop, specGoogleText, List.filterMap_cons, Option.map_none]
          exact ih acc
      | some t =>
          simp only [googleChunkLoop]
          rw [ih (acc ++ (pyCapitalize t ++ ". "))]
          simp [specGoogleText, List.filterMap_cons, string_join_cons, String.append_assoc]

theorem countProcessed_append (l₁ l₂ : List ViewEvent) :
    countProcessed (l₁ ++ l₂) = countProcessed l₁ + countProcessed l₂ := by
  simp [countProcessed, List.filter_append]

theorem collectFromFiles_eq (root : String) (files : List String) :
    collectFromFiles root files
      = (files.map (fun f => (root, f))).filter (fun rf => matchesExtension rf.2) := by
  induction files with
  | nil => rfl
  | cons f rest ih =>
      simp only [collectFromFiles, List.map_cons, List.filter_cons]
      by_cases h : matchesExtension f <;> simp [h, ih]

theorem collectFromWalk_append (a b : List (String × List String)) :
    collectFromWalk (a ++ b) = collectFromWalk a ++ collectFromWalk b := by
  induction a with
  | nil => rfl
  | cons x rest ih =>
      obtain ⟨r, fs⟩ := x
      simp [collectFromWalk, ih, List.append_assoc]

mutual
theorem scanTree_eq_filter (root : String) (t : DirTree) :
    collectFromWalk (osWalk root t)
      = (allFiles root t).filter (fun rf => matchesExtension rf.2) := by
  cases t with
  | mk files subdirs =>
      simp only [osWalk, allFiles, collectFromWalk, List.filter_append,
        collectFromFiles_eq, scanForest_eq_filter root subdirs]

theorem scanForest_eq_filter (root : String) (f : DirForest) :
    collectFromWalk (osWalkForest root f)
      = (allFilesForest root f).filter (fun rf => matchesExtension rf.2) := by
  cases f with
  | nil => rfl
  | cons name t rest =>
      simp only [osWalkForest, allFilesForest, collectFromWalk_append,
        List.filter_append, scanTree_eq_filter (root ++ "/" ++ name) t,
        scanForest_eq_filter root rest]
end

/-! ## Frame lemmas -/

theorem dot_srt : ("." ++ "srt" : String) = ".srt" := by decide

theorem dot_vtt : ("." ++ "vtt" : String) = ".vtt" := by decide

theorem sameMeta_refl (a : Transcription) : sameMeta a a :=
  ⟨rfl, rfl, rfl, rfl, rfl, rfl⟩

theorem writeSubtitleFormat_meta (st : CState) (p : PathV) (fmt : String) (ov : Bool) :
    (resState (writeSubtitleFormat st p fmt ov)).transcription = st.transcription
    ∧ (resState (writeSubtitleFormat st p fmt ov)).events = st.events := by
  cases hw : st.whisperx_result with
  | none =>
      simp only [writeSubtitleFormat, hw]
      split <;> simp [resState]
  | some r =>
      simp only [writeSubtitleFormat, hw]
      split <;> simp [resState]

theorem writeSubtitleFormat_fs_other (st : CState) (p : PathV) (fmt : String) (ov : Bool)
    (q : PathV) (hq : q.ext ≠ "." ++ fmt) :
    fsRead (resState (writeSubtitleFormat st p fmt ov)).fs q = fsRead st.fs q := by
  have hne : q ≠ { dir := p.dir, stem := p.stem, ext := "." ++ fmt } :=
    fun h => hq (congrArg PathV.ext h)
  cases hw : st.whisperx_result with
  | none =>
      simp only [writeSubtitleFormat, hw]
      split <;> simp [resState]
  | some r =>
      simp only [writeSubtitleFormat, hw]
      split <;> simp [resState, fsRead, fsWrite, hne]

theorem generateSubtitles_meta (st : CState) (p : PathV) (ov : Bool) :
    (resState (generateSubtitles st p ov)).transcription = st.transcription
    ∧ (resState (generateSubtitles st p ov)).events = st.events := by
  unfold generateSubtitles
  cases h : writeSubtitleFormat st p "srt" ov with
  | error s =>
      have h1 := writeSubtitleFormat_meta st p "srt" ov
      rw [h] at h1
      simpa [resState] using h1
  | ok st1 =>
      have h1 := writeSubtitleFormat_meta st p "srt" ov
      rw [h] at h1
      simp only [resState] at h1
      have h2 := writeSubtitleFormat_meta st1 p "vtt" ov
      exact ⟨by rw [h2.1, h1.1], by rw [h2.2, h1.2]⟩

theorem generateSubtitles_fs_other (st : CState) (p : PathV) (ov : Bool) (q : PathV)
    (h1 : q.ext ≠ ".srt") (h2 : q.ext ≠ ".vtt") :
    fsRead (resState (generateSubtitles st p ov)).fs q = fsRead st.fs q := by
  have hs : q.ext ≠ "." ++ "srt" := by rw [dot_srt]; exact h1
  have hv : q.ext ≠ "." ++ "vtt" := by rw [dot_vtt]; exact h2
  unfold generateSubtitles
  cases h : writeSubtitleFormat st p "srt" ov with
  | error s =>
      have ha := writeSubtitleFormat_fs_other st p "srt" ov q hs
      rw [h] at ha
      simpa [resState] using ha
  | ok st1 =>
      have ha := writeSubtitleFormat_fs_other st p "srt" ov q hs
      rw [h] at ha
      simp only [resState] at ha
      have hb := writeSubtitleFormat_fs_other st1 p "vtt" ov q hv
      rw [hb, ha]

theorem saveWriteStep_transcription (st : CState) (p : PathV) (ov : Bool) :
    (saveWriteStep st p ov).transcription = st.transcription := by
  unfold saveWriteStep
  split <;> rfl

theorem saveWriteStep_events (st : CState) (p : PathV) (ov : Bool) :
    (saveWriteStep st p ov).events = st.events := by
  unfold saveWriteStep
  split <;> rfl

theorem saveWriteStep_fs_other (st : CState) (p : PathV) (ov : Bool) (q : PathV)
    (h : q ≠ p) :
    fsRead (saveWriteStep st p ov).fs q = fsRead st.fs q := by
  unfold saveWriteStep
  split
  · simp [fsRead, fsWrite, h]
  · rfl

theorem saveWriteStep_fs_dest (st : CState) (p : PathV) (ov : Bool) :
    fsRead (saveWriteStep st p ov).fs p
      = if ov || (fsRead st.fs p).isNone then some st.transcription.text
        else fsRead st.fs p := by
  unfold saveWriteStep
  split
  · simp [fsRead, fsWrite]
  · rfl

theorem saveSubtitleStep_transcription (st : CState) (p : PathV) (ov : Bool) :
    (resState (saveSubtitleStep st p ov)).transcription = st.transcription := by
  unfold saveSubtitleStep
  split
  · exact (generateSubtitles_meta st p ov).1
  · rfl

theorem saveSubtitleStep_events (st : CState) (p : PathV) (ov : Bool) :
    (resState (saveSubtitleStep st p ov)).events = st.events := by
  unfold saveSubtitleStep
  split
  · exact (generateSubtitles_meta st p ov).2
  · rfl

theorem saveSubtitleStep_fs_other (st : CState) (p : PathV) (ov : Bool) (q : PathV)
    (h1 : q.ext ≠ ".srt") (h2 : q.ext ≠ ".vtt") :
    fsRead (resState (saveSubtitleStep st p ov)).fs q = fsRead st.fs q := by
  unfold saveSubtitleStep
  split
  · exact generateSubtitles_fs_other st p ov q h1 h2
  · rfl

theorem saveTranscription_meta (st : CState) (fp : PathV) (sa ov : Bool)
    (dlg : Option PathV) :
    (resState (saveTranscription st fp sa ov dlg)).transcription = st.transcription
    ∧ (resState (saveTranscription st fp sa ov dlg)).events = st.events := by
  rcases h : destOf fp sa dlg with _ | dest <;> simp only [saveTranscription, h]
  · exact ⟨rfl, rfl⟩
  · exact ⟨by rw [saveSubtitleStep_transcription, saveWriteStep_transcription],
      by rw [saveSubtitleStep_events, saveWriteStep_events]⟩

theorem saveTranscription_autosave_fs_other (st : CState) (fp : PathV) (ov : Bool)
    (q : PathV) (h1 : q.ext ≠ ".txt") (h2 : q.ext ≠ ".srt") (h3 : q.ext ≠ ".vtt") :
    fsRead (resState (saveTranscription st fp true ov none)).fs q = fsRead st.fs q := by
  have hd : destOf fp true none
      = some { dir := fp.dir, stem := fp.stem, ext := ".txt" } := rfl
  simp only [saveTranscription, hd]
  rw [saveSubtitleStep_fs_other _ _ _ _ h2 h3,
    saveWriteStep_fs_other st _ ov q (fun h => h1 (congrArg PathV.ext h))]

theorem finishWhisperx_meta (st : CState) (tc : String) :
    sameMeta (finishWhisperx st tc).transcription st.transcription
    ∧ (finishWhisperx st tc).fs = st.fs := by
  simp only [finishWhisperx]
  split <;> exact ⟨⟨rfl, rfl, rfl, rfl, rfl, rfl⟩, rfl⟩

theorem transcribeUsingWhisperx_meta (st : CState) (w : WhisperxWorld) :
    sameMeta (transcribeUsingWhisperx st w).transcription st.transcription
    ∧ (transcribeUsingWhisperx st w).fs = st.fs := by
  obtain ⟨tr, raw, al⟩ := w
  cases tr with
  | none => exact ⟨sameMeta_refl _, rfl⟩
  | some segs =>
      simp only [transcribeUsingWhisperx]
      split
      · cases al with
        | none => exact ⟨sameMeta_refl _, rfl⟩
        | some a => exact finishWhisperx_meta _ _
      · exact finishWhisperx_meta _ _

theorem transcribeUsingGoogleApi_meta (st : CState) (g : GoogleOutcome) :
    sameMeta (transcribeUsingGoogleApi st g).transcription st.transcription
    ∧ (transcribeUsingGoogleApi st g).fs = st.fs
    ∧ countProcessed (transcribeUsingGoogleApi st g).events = countProcessed st.events := by
  cases g with
  | raised =>
      simp only [transcribeUsingGoogleApi]
      split <;>
        exact ⟨⟨rfl, rfl, rfl, rfl, rfl, rfl⟩, rfl,
          by simp [countProcessed, List.filter_append, isProcessedEvent]⟩
  | chunks results =>
      simp only [transcribeUsingGoogleApi]
      split <;>
        exact ⟨⟨rfl, rfl, rfl, rfl, rfl, rfl⟩, rfl,
          by simp [countProcessed, List.filter_append, isProcessedEvent]⟩

theorem backendStep_meta (st : CState) (w : FileWorld) :
    sameMeta (backendStep st w).transcription st.transcription
    ∧ (backendStep st w).fs = st.fs := by
  unfold backendStep
  split
  · exact transcribeUsingWhisperx_meta st w.wx
  · split
    · exact ⟨(transcribeUsingGoogleApi_meta st w.g).1, (transcribeUsingGoogleApi_meta st w.g).2.1⟩
    · exact ⟨sameMeta_refl _, rfl⟩

theorem unlinkStep_transcription (st : CState) :
    (unlinkStep st).transcription = st.transcription := by
  unfold unlinkStep
  split <;> rfl

theorem unlinkStep_events (st : CState) :
    (unlinkStep st).events = st.events := by
  unfold unlinkStep
  split <;> rfl

theorem saveWriteStep_whisperx (st : CState) (p : PathV) (ov : Bool) :
    (saveWriteStep st p ov).whisperx_result = st.whisperx_result := by
  unfold saveWriteStep
  split <;> rfl

theorem writeSubtitleFormat_none (st : CState) (p : PathV) (fmt : String) (ov : Bool)
    (hwx : st.whisperx_result = none) :
    writeSubtitleFormat st p fmt ov
      = if (ov || (fsRead st.fs { dir := p.dir, stem := p.stem, ext := "." ++ fmt }).isNone)
            = true
        then Except.error st else Except.ok st := by
  unfold writeSubtitleFormat
  rw [hwx]

/-- With no whisperx result (cloud-API backend), `_generate_subtitles`
never changes the state: it either raises at the first output that is
due to be written, or does nothing. -/
theorem generateSubtitles_none_state (st : CState) (p : PathV) (ov : Bool)
    (hwx : st.whisperx_result = none) :
    resState (generateSubtitles st p ov) = st := by
  unfold generateSubtitles
  rw [writeSubtitleFormat_none st p "srt" ov hwx]
  by_cases h1 : (ov || (fsRead st.fs { dir := p.dir, stem := p.stem, ext := "." ++ "srt" }).isNone)
      = true
  · rw [if_pos h1]
    rfl
  · rw [if_neg h1]
    show resState (writeSubtitleFormat st p "vtt" ov) = st
    rw [writeSubtitleFormat_none st p "vtt" ov hwx]
    by_cases h2 : (ov || (fsRead st.fs { dir := p.dir, stem := p.stem, ext := "." ++ "vtt" }).isNone)
        = true
    · rw [if_pos h2]
      rfl
    · rw [if_neg h2]
      rfl

/-- With no whisperx result, `_generate_subtitles` raises whenever some
subtitle output is due to be written under the overwrite policy. -/
theorem generateSubtitles_none_raises (st : CState) (p : PathV) (ov : Bool)
    (hwx : st.whisperx_result = none)
    (hneed : ov = true
      ∨ fsRead st.fs { dir := p.dir, stem := p.stem, ext := "." ++ "srt" } = none
      ∨ fsRead st.fs { dir := p.dir, stem := p.stem, ext := "." ++ "vtt" } = none) :
    isExceptError (generateSubtitles st p ov) = true := by
  unfold generateSubtitles
  rw [writeSubtitleFormat_none st p "srt" ov hwx]
  by_cases h1 : (ov || (fsRead st.fs { dir := p.dir, stem := p.stem, ext := "." ++ "srt" }).isNone)
      = true
  · rw [if_pos h1]
    rfl
  · rw [if_neg h1]
    show isExceptError (writeSubtitleFormat st p "vtt" ov) = true
    rw [writeSubtitleFormat_none st p "vtt" ov hwx]
    rw [Bool.or_eq_true, not_or] at h1
    obtain ⟨hov, hsrt⟩ := h1
    have h2 : (ov || (fsRead st.fs { dir := p.dir, stem := p.stem, ext := "." ++ "vtt" }).isNone)
        = true := by
      rcases hneed with h | h | h
      · exact absurd h hov
      · exact absurd (by rw [h]; rfl) hsrt
      · rw [h]
        simp
    rw [if_pos h2]
    rfl

/-- When subtitles are off, `save_transcription` on the autosave path is
just the guarded text write. -/
theorem saveTranscription_no_subtitle (st : CState) (fp : PathV) (ov : Bool)
    (hsub : st.transcription.should_subtitle = false) :
    saveTranscription st fp true ov none
      = Except.ok (saveWriteStep st { dir := fp.dir, stem := fp.stem, ext := ".txt" } ov) := by
  have hd : destOf fp true none
      = some { dir := fp.dir, stem := fp.stem, ext := ".txt" } := rfl
  have hs1 : (saveWriteStep st { dir := fp.dir, stem := fp.stem, ext := ".txt" } ov).transcription.should_subtitle
      = false := by
    rw [saveWriteStep_transcription]
    exact hsub
  simp only [saveTranscription, hd, saveSubtitleStep, hs1]
  simp

/-- A per-file task of a directory request over the cloud-API backend
with subtitles off completes without raising, emits no
`on_processed_transcription` call, and keeps the backend selection. -/
theorem transcribeFile_google_ok (st : CState) (fp : PathV) (w : FileWorld)
    (hm : st.transcription.method = TranscriptionMethod.GOOGLE_API)
    (hsub : st.transcription.should_subtitle = false) :
    ∃ st', transcribeFile st fp w = Except.ok st'
      ∧ st'.transcription.method = TranscriptionMethod.GOOGLE_API
      ∧ st'.transcription.should_subtitle = false
      ∧ countProcessed st'.events = countProcessed st.events := by
  have hm' : ¬ st.transcription.method = TranscriptionMethod.WHISPERX := by
    rw [hm]
    decide
  have hb : backendStep st w = transcribeUsingGoogleApi st w.g := by
    unfold backendStep
    rw [if_neg hm', if_pos hm]
  obtain ⟨gmeta, gfs, gcnt⟩ := transcribeUsingGoogleApi_meta st w.g
  obtain ⟨gsrc, gpath, gmethod, gsub, gsave, gov⟩ := gmeta
  have hu_t : (unlinkStep (transcribeUsingGoogleApi st w.g)).transcription
      = (transcribeUsingGoogleApi st w.g).transcription := unlinkStep_transcription _
  have hu_e : (unlinkStep (transcribeUsingGoogleApi st w.g)).events
      = (transcribeUsingGoogleApi st w.g).events := unlinkStep_events _
  simp only [transcribeFile, hb]
  by_cases ha : (unlinkStep (transcribeUsingGoogleApi st w.g)).transcription.should_autosave
      = true
  · rw [if_pos ha]
    have hsub2 : (unlinkStep (transcribeUsingGoogleApi st w.g)).transcription.should_subtitle
        = false := by
      rw [hu_t, gsub]
      exact hsub
    rw [saveTranscription_no_subtitle _ fp _ hsub2]
    refine ⟨_, rfl, ?_, ?_, ?_⟩
    · rw [saveWriteStep_transcription, hu_t, gmethod]
      exact hm
    · rw [saveWriteStep_transcription, hu_t, gsub]
      exact hsub
    · rw [saveWriteStep_events, hu_e, gcnt]
  · rw [if_neg ha]
    refine ⟨_, rfl, ?_, ?_, ?_⟩
    · rw [hu_t, gmethod]
      exact hm
    · rw [hu_t, gsub]
      exact hsub
    · rw [hu_e, gcnt]

/-- Over a list of such tasks, `asyncio.gather` raises nothing, no
notification is emitted, and the backend selection is preserved. -/
theorem runTasks_google (tasks : List (PathV × FileWorld)) : ∀ st : CState,
    st.transcription.method = TranscriptionMethod.GOOGLE_API →
    st.transcription.should_subtitle = false →
    (runTasks st tasks).2 = false
    ∧ (runTasks st tasks).1.transcription.method = TranscriptionMethod.GOOGLE_API
    ∧ (runTasks st tasks).1.transcription.should_subtitle = false
    ∧ countProcessed (runTasks st tasks).1.events = countProcessed st.events := by
  induction tasks with
  | nil => exact fun st hm hsub => ⟨rfl, hm, hsub, rfl⟩
  | cons t rest ih =>
      intro st hm hsub
      obtain ⟨st', hok, hm', hsub', hcnt⟩ := transcribeFile_google_ok st t.1 t.2 hm hsub
      simp only [runTasks, hok]
      obtain ⟨h1, h2, h3, h4⟩ := ih st' hm' hsub'
      exact ⟨h1, h2, h3, by rw [h4, hcnt]⟩

/-! ## Claims -/

/-- C7: for every directory tree, the directory scan returns exactly the
files (at any nesting depth) whose names end in an allow-listed
audio/video extension, and none of the others: it equals the full file
enumeration filtered by the extension predicate. -/
theorem c7_directory_scan (root : String) (t : DirTree) :
    getTranscribableFilesFromDir root t
      = (allFiles root t).filter (fun rf => matchesExtension rf.2) :=
  scanTree_eq_filter root t

/-- C5: in the cloud-API backend, a chunk that fails recognition
contributes no text and does not abort the later chunks; the final text
is exactly the in-order concatenation of each successful chunk's
capitalized text followed by the trailing separator. -/
theorem c5_google_chunk_independence (st : CState) (chunks : List (Option String)) :
    (transcribeUsingGoogleApi st (GoogleOutcome.chunks chunks)).transcription.text
      = specGoogleText chunks
    ∧ (transcribeUsingGoogleApi st (GoogleOutcome.chunks (none :: chunks))).transcription.text
      = (transcribeUsingGoogleApi st (GoogleOutcome.chunks chunks)).transcription.text := by
  have key : ∀ l : List (Option String),
      (transcribeUsingGoogleApi st (GoogleOutcome.chunks l)).transcription.text
        = specGoogleText l := by
    intro l
    have hloop := googleChunkLoop_spec l ""
    rw [String.empty_append] at hloop
    simp only [transcribeUsingGoogleApi]
    split <;> simp [hloop]
  refine ⟨key chunks, ?_⟩
  rw [key chunks, key (none :: chunks)]
  simp [specGoogleText, List.filterMap_cons]

/-- C10: when `should_autosave` is false and the interactive destination
dialog yields an empty path, `save_transcription` returns without
writing any text file, without generating subtitles and without raising;
the state (filesystem included) is unchanged. -/
theorem c10_cancelled_dialog (st : CState) (fp : PathV) (ov : Bool) :
    saveTranscription st fp false ov none = Except.ok st := rfl

/-- C1: the completion notification passes `is_transcription_empty` as
the `success` flag, so the view is told `success = false` exactly when
the final text is non-empty — the opposite of the specified contract.
Evaluated at a FILE request whose cloud-API backend recognized one chunk
("hello"), and at one that produced no chunks. -/
theorem c1_success_flag_bug :
    (handleTranscriptionProcess c1SuccessState [] exFileWorld).transcription.text = "Hello. "
    ∧ (handleTranscriptionProcess c1SuccessState [] exFileWorld).events.getLast?
        = some (ViewEvent.processed false)
    ∧ (handleTranscriptionProcess c1SuccessState [] emptyChunksWorld).transcription.text = ""
    ∧ (handleTranscriptionProcess c1SuccessState [] emptyChunksWorld).events.getLast?
        = some (ViewEvent.processed true) :=
  ⟨rfl, rfl, rfl, rfl⟩

/-- C3 counterexample: one directory request dispatching a single
per-file task whose local-model backend fails gives TWO
`on_processed_transcription` notifications (one from the per-file
exception handler, one from the `finally` block), refuting the
exactly-once claim. -/
theorem c3_counterexample :
    countProcessed (handleTranscriptionProcess c3DirState
      [(exPath, exFileWorld)] exFileWorld).events = 2 := rfl

/-- C2 counterexample: with the cloud-API backend selected (so
`_whisperx_result` is `None`) and subtitles requested, an autosave call
to `save_transcription` raises (the `TypeError` of subscripting `None`)
instead of completing silently; no subtitle file is written. -/
theorem c2_counterexample :
    isExceptError (saveTranscription c2State exPath true true none) = true
    ∧ fsRead (resState (saveTranscription c2State exPath true true none)).fs
        { dir := "/music", stem := "a", ext := ".srt" } = none
    ∧ fsRead (resState (saveTranscription c2State exPath true true none)).fs
        { dir := "/music", stem := "a", ext := ".vtt" } = none :=
  ⟨rfl, rfl, rfl⟩

/-- C4 counterexample: for a directory whose scan finds zero matching
files, the prepare step raises nothing synchronously — it spawns the
background worker unconditionally; the validation error only surfaces
inside the background process (which here even notifies the view
twice). -/
theorem c4_counterexample :
    getTranscribableFilesFromDir "/music" c4Tree = []
    ∧ (prepareForDirectoryFilesTranscription c4State c4DirPath).2 = PrepareOutcome.spawned
    ∧ countProcessed (handleTranscriptionProcess
        (prepareForDirectoryFilesTranscription c4State c4DirPath).1 [] exFileWorld).events
      = 2 := by
  have h1 : matchesExtension "readme.md" = false := by decide
  have h2 : matchesExtension "notes.pdf" = false := by decide
  refine ⟨?_, rfl, rfl⟩
  simp [getTranscribableFilesFromDir, c4Tree, osWalk, osWalkForest,
    collectFromWalk, collectFromFiles, h1, h2]

/-- C4 (amended): the empty-directory validation error is raised inside
the background transcription process, before any backend call is
attempted, and reported to the view as a failure — but the prepare step
itself spawns the background worker unconditionally and raises nothing
synchronously. -/
theorem c4_amended_async_validation (st : CState) (p : PathV) (w : FileWorld)
    (hsrc : st.transcription.source = AudioSource.DIRECTORY) :
    (prepareForDirectoryFilesTranscription st p).2 = PrepareOutcome.spawned
    ∧ (handleTranscriptionProcess (prepareForDirectoryFilesTranscription st p).1 [] w).events
        = st.events ++ [ViewEvent.processed false, ViewEvent.displayText emptyDirMsg,
            ViewEvent.processed (st.transcription.text == "")] := by
  refine ⟨rfl, ?_⟩
  have hsrc0 : (prepareForDirectoryFilesTranscription st p).1.transcription.source
      = AudioSource.DIRECTORY := hsrc
  simp [handleTranscriptionProcess, hsrc0, handleException, List.isEmpty]
  rfl

/-- C4 amended witness. -/
theorem c4_amended_witness :
    (handleTranscriptionProcess (prepareForDirectoryFilesTranscription c4State c4DirPath).1
        [] exFileWorld).events
      = c4State.events ++ [ViewEvent.processed false, ViewEvent.displayText emptyDirMsg,
          ViewEvent.processed (c4State.transcription.text == "")] :=
  (c4_amended_async_validation c4State c4DirPath exFileWorld rfl).2

/-- C3 (amended): the final notification of the `finally` block fires
exactly once, as the last call of the request, provided no per-file
task triggers the exception handler — here: every task runs the
cloud-API backend with subtitles off.  (When a task fails, its
exception handler emits an additional `on_processed_transcription`
call, so the claim's exactly-once guarantee does not hold in
general.) -/
theorem c3_amended_single_notification (st : CState) (tasks : List (PathV × FileWorld))
    (w : FileWorld)
    (hsrc : st.transcription.source = AudioSource.DIRECTORY)
    (hm : st.transcription.method = TranscriptionMethod.GOOGLE_API)
    (hsub : st.transcription.should_subtitle = false)
    (hne : tasks ≠ []) :
    countProcessed (handleTranscriptionProcess st tasks w).events
      = countProcessed st.events + 1
    ∧ ∃ b, (handleTranscriptionProcess st tasks w).events.getLast?
        = some (ViewEvent.processed b) := by
  obtain ⟨hfalse, hmeth, hsubr, hcnt⟩ := runTasks_google tasks st hm hsub
  have hempty : tasks.isEmpty = false := by
    cases tasks with
    | nil => exact absurd rfl hne
    | cons a l => rfl
  have hmain : (handleTranscriptionProcess st tasks w).events
      = ((runTasks st tasks).1.events
          ++ [ViewEvent.displayText (dirSuccessMsg st.transcription.source_path)])
        ++ [ViewEvent.processed ((runTasks st tasks).1.transcription.text == "")] := by
    simp [handleTranscriptionProcess, hsrc, hempty, hfalse]
  rw [hmain]
  constructor
  · rw [countProcessed_append, countProcessed_append, hcnt]
    simp [countProcessed, isProcessedEvent]
  · exact ⟨_, List.getLast?_concat _⟩

/-- C3 amended witness. -/
theorem c3_amended_witness :
    countProcessed (handleTranscriptionProcess c3gState [(exPath, exFileWorld)]
        exFileWorld).events
      = countProcessed c3gState.events + 1 :=
  (c3_amended_single_notification c3gState [(exPath, exFileWorld)] exFileWorld rfl rfl rfl
    (by simp)).1

/-- C6: for every `save_transcription` call whose destination is a
`.txt` path, if overwriting is disallowed and the destination exists,
its prior contents are unchanged afterwards (whether or not the call
then raises in subtitle generation); if overwriting is allowed or the
destination does not exist, its contents afterwards are exactly the
record's text. -/
theorem c6_save_overwrite_policy (st : CState) (fp : PathV) (sa ov : Bool)
    (dlg : Option PathV) (dest : PathV)
    (hdest : destOf fp sa dlg = some dest)
    (hext : dest.ext = ".txt") :
    (ov = false → ∀ old, fsRead st.fs dest = some old →
        fsRead (resState (saveTranscription st fp sa ov dlg)).fs dest = some old)
    ∧ ((ov = true ∨ fsRead st.fs dest = none) →
        fsRead (resState (saveTranscription st fp sa ov dlg)).fs dest
          = some st.transcription.text) := by
  have hsrt : dest.ext ≠ ".srt" := by
    rw [hext]
    decide
  have hvtt : dest.ext ≠ ".vtt" := by
    rw [hext]
    decide
  simp only [saveTranscription, hdest]
  constructor
  · intro hov old hold
    rw [saveSubtitleStep_fs_other _ _ _ _ hsrt hvtt, saveWriteStep_fs_dest]
    rw [hov, hold]
    simp [hold]
  · intro hc
    rw [saveSubtitleStep_fs_other _ _ _ _ hsrt hvtt, saveWriteStep_fs_dest]
    rcases hc with h | h <;> simp [h]

/-- C6 witness: with overwrite off an existing transcript survives; with
overwrite on it is replaced by the record's text. -/
theorem c6_witness :
    fsRead (resState (saveTranscription c6State exPath true false none)).fs c6Dest
      = some "old text"
    ∧ fsRead (resState (saveTranscription c6State exPath true true none)).fs c6Dest
      = some "new text" :=
  ⟨(c6_save_overwrite_policy c6State exPath true false none c6Dest rfl rfl).1 rfl
      "old text" rfl,
    (c6_save_overwrite_policy c6State exPath true true none c6Dest rfl rfl).2 (Or.inl rfl)⟩

/-- C8: the cloud-API backend's chunks directory is removed on every
exit path of a backend invocation, and for MIC/YOUTUBE sources the
temporary audio file is absent from the filesystem after
`_transcribe_file` finishes, whatever the backend outcome. -/
theorem c8_temp_cleanup (s1 : CState) (g : GoogleOutcome) (s2 : CState) (fp : PathV)
    (w : FileWorld)
    (hsrc : s2.transcription.source = AudioSource.MIC
      ∨ s2.transcription.source = AudioSource.YOUTUBE)
    (h1 : s2.transcription.source_path.ext ≠ ".txt")
    (h2 : s2.transcription.source_path.ext ≠ ".srt")
    (h3 : s2.transcription.source_path.ext ≠ ".vtt") :
    (transcribeUsingGoogleApi s1 g).chunksDirPresent = false
    ∧ fsRead (resState (transcribeFile s2 fp w)).fs s2.transcription.source_path = none := by
  constructor
  · cases g with
    | raised =>
        simp only [transcribeUsingGoogleApi]
        split <;> rfl
    | chunks results =>
        simp only [transcribeUsingGoogleApi]
        split <;> rfl
  · obtain ⟨bmeta, bfs⟩ := backendStep_meta s2 w
    obtain ⟨bsrc, bpath, _, _, _, _⟩ := bmeta
    have hcond : (backendStep s2 w).transcription.source = AudioSource.MIC
        ∨ (backendStep s2 w).transcription.source = AudioSource.YOUTUBE := by
      rw [bsrc]
      exact hsrc
    have hu : unlinkStep (backendStep s2 w)
        = { backendStep s2 w with
            fs := fsErase (backendStep s2 w).fs (backendStep s2 w).transcription.source_path } := by
      unfold unlinkStep
      rw [if_pos hcond]
    have hread : fsRead (unlinkStep (backendStep s2 w)).fs s2.transcription.source_path
        = none := by
      rw [hu]
      show fsRead (fsErase (backendStep s2 w).fs (backendStep s2 w).transcription.source_path)
          s2.transcription.source_path = none
      rw [bpath]
      simp [fsRead, fsErase]
    simp only [transcribeFile]
    by_cases ha : (unlinkStep (backendStep s2 w)).transcription.should_autosave = true
    · rw [if_pos ha]
      rw [saveTranscription_autosave_fs_other _ _ _ _ h1 h2 h3]
      exact hread
    · rw [if_neg ha]
      exact hread

/-- C8 witness. -/
theorem c8_witness :
    (transcribeUsingGoogleApi baseState GoogleOutcome.raised).chunksDirPresent = false
    ∧ fsRead (resState (transcribeFile micState micPath exFileWorld)).fs micPath = none :=
  c8_temp_cleanup baseState GoogleOutcome.raised micState micPath exFileWorld (Or.inl rfl)
    (by decide) (by decide) (by decide)

/-- C9: for an autosaving directory member whose whisperx backend
fails internally (the exception is caught inside the backend and the
record's text is left untouched), `_transcribe_file` still calls
`save_transcription`, persisting whatever text the shared record
currently holds under the failed file's sibling `.txt` name. -/
theorem c9_autosave_after_backend_failure (st : CState) (fp : PathV) (w : FileWorld)
    (hm : st.transcription.method = TranscriptionMethod.WHISPERX)
    (hfail : w.wx.transcribeResult = none)
    (hsrc : st.transcription.source = AudioSource.DIRECTORY)
    (hsave : st.transcription.should_autosave = true)
    (hov : st.transcription.should_overwrite = true) :
    (resState (transcribeFile st fp w)).transcription.text = st.transcription.text
    ∧ fsRead (resState (transcribeFile st fp w)).fs
        { dir := fp.dir, stem := fp.stem, ext := ".txt" }
      = some st.transcription.text := by
  have hb : backendStep st w = handleException st whisperxErrMsg := by
    unfold backendStep
    rw [if_pos hm]
    unfold transcribeUsingWhisperx
    rw [hfail]
  have hcond : ¬((backendStep st w).transcription.source = AudioSource.MIC
      ∨ (backendStep st w).transcription.source = AudioSource.YOUTUBE) := by
    rw [hb]
    show ¬(st.transcription.source = AudioSource.MIC
      ∨ st.transcription.source = AudioSource.YOUTUBE)
    rw [hsrc]
    decide
  have hu : unlinkStep (backendStep st w) = backendStep st w := by
    unfold unlinkStep
    rw [if_neg hcond]
  have hsave' : (unlinkStep (backendStep st w)).transcription.should_autosave = true := by
    rw [hu, hb]
    exact hsave
  simp only [transcribeFile]
  rw [if_pos hsave', hu, hb]
  have hovE : (handleException st whisperxErrMsg).transcription.should_overwrite = true := hov
  rw [hovE]
  have hd : destOf fp true none
      = some { dir := fp.dir, stem := fp.stem, ext := ".txt" } := rfl
  simp only [saveTranscription, hd]
  have hsrtne : ({ dir := fp.dir, stem := fp.stem, ext := ".txt" } : PathV).ext ≠ ".srt" :=
    show (".txt" : String) ≠ ".srt" from by decide
  have hvttne : ({ dir := fp.dir, stem := fp.stem, ext := ".txt" } : PathV).ext ≠ ".vtt" :=
    show (".txt" : String) ≠ ".vtt" from by decide
  constructor
  · rw [saveSubtitleStep_transcription, saveWriteStep_transcription]
    rfl
  · rw [saveSubtitleStep_fs_other _ _ _ _ hsrtne hvttne, saveWriteStep_fs_dest]
    rfl

/-- C9 witness: the failed file's `.txt` receives the leftover text of
the previously transcribed file. -/
theorem c9_witness :
    fsRead (resState (transcribeFile c9State exPath exFileWorld)).fs
      { dir := "/music", stem := "a", ext := ".txt" }
      = some "leftover text" :=
  (c9_autosave_after_backend_failure c9State exPath exFileWorld rfl rfl rfl rfl rfl).2

/-- C2 (amended): when subtitles are requested, `save_transcription`
always attempts subtitle generation regardless of backend.  With the
cloud-API backend selected (no whisperx result), no subtitle file is
written — but instead of completing silently, the call raises a
`TypeError` whenever at least one subtitle output is due to be written
under the overwrite policy (it completes without error only when
overwriting is off and both outputs already exist). -/
theorem c2_amended_subtitles (st : CState) (fp : PathV) (ov : Bool)
    (hsub : st.transcription.should_subtitle = true)
    (hwx : st.whisperx_result = none)
    (hneed : ov = true
      ∨ fsRead st.fs { dir := fp.dir, stem := fp.stem, ext := ".srt" } = none
      ∨ fsRead st.fs { dir := fp.dir, stem := fp.stem, ext := ".vtt" } = none) :
    isExceptError (saveTranscription st fp true ov none) = true
    ∧ fsRead (resState (saveTranscription st fp true ov none)).fs
        { dir := fp.dir, stem := fp.stem, ext := ".srt" }
      = fsRead st.fs { dir := fp.dir, stem := fp.stem, ext := ".srt" }
    ∧ fsRead (resState (saveTranscription st fp true ov none)).fs
        { dir := fp.dir, stem := fp.stem, ext := ".vtt" }
      = fsRead st.fs { dir := fp.dir, stem := fp.stem, ext := ".vtt" } := by
  have hd : destOf fp true none
      = some { dir := fp.dir, stem := fp.stem, ext := ".txt" } := rfl
  have hsrtPath : ({ dir := fp.dir, stem := fp.stem, ext := "." ++ "srt" } : PathV)
      = { dir := fp.dir, stem := fp.stem, ext := ".srt" } := by
    rw [dot_srt]
  have hvttPath : ({ dir := fp.dir, stem := fp.stem, ext := "." ++ "vtt" } : PathV)
      = { dir := fp.dir, stem := fp.stem, ext := ".vtt" } := by
    rw [dot_vtt]
  have hwx1 : (saveWriteStep st { dir := fp.dir, stem := fp.stem, ext := ".txt" } ov).whisperx_result
      = none := by
    rw [saveWriteStep_whisperx]
    exact hwx
  have hsub1 : (saveWriteStep st { dir := fp.dir, stem := fp.stem, ext := ".txt" } ov).transcription.should_subtitle
      = true := by
    rw [saveWriteStep_transcription]
    exact hsub
  have hfs_srt : fsRead (saveWriteStep st { dir := fp.dir, stem := fp.stem, ext := ".txt" } ov).fs
      { dir := fp.dir, stem := fp.stem, ext := ".srt" }
      = fsRead st.fs { dir := fp.dir, stem := fp.stem, ext := ".srt" } := by
    rw [saveWriteStep_fs_other]
    intro h
    have := congrArg PathV.ext h
    simp at this
  have hfs_vtt : fsRead (saveWriteStep st { dir := fp.dir, stem := fp.stem, ext := ".txt" } ov).fs
      { dir := fp.dir, stem := fp.stem, ext := ".vtt" }
      = fsRead st.fs { dir := fp.dir, stem := fp.stem, ext := ".vtt" } := by
    rw [saveWriteStep_fs_other]
    intro h
    have := congrArg PathV.ext h
    simp at this
  simp only [saveTranscription, hd, saveSubtitleStep, hsub1, if_true]
  have hstate := generateSubtitles_none_state
    (saveWriteStep st { dir := fp.dir, stem := fp.stem, ext := ".txt" } ov)
    { dir := fp.dir, stem := fp.stem, ext := ".txt" } ov hwx1
  have hraise := generateSubtitles_none_raises
    (saveWriteStep st { dir := fp.dir, stem := fp.stem, ext := ".txt" } ov)
    { dir := fp.dir, stem := fp.stem, ext := ".txt" } ov hwx1 ?_
  · refine ⟨hraise, ?_, ?_⟩
    · rw [hstate]
      exact hfs_srt
    · rw [hstate]
      exact hfs_vtt
  · show ov = true ∨ _ ∨ _
    rcases hneed with h | h | h
    · exact Or.inl h
    · refine Or.inr (Or.inl ?_)
      show fsRead _ ({ dir := fp.dir, stem := fp.stem, ext := "." ++ "srt" } : PathV) = none
      rw [hsrtPath, hfs_srt]
      exact h
    · refine Or.inr (Or.inr ?_)
      show fsRead _ ({ dir := fp.dir, stem := fp.stem, ext := "." ++ "vtt" } : PathV) = none
      rw [hvttPath, hfs_vtt]
      exact h

/-- C2 amended witness. -/
theorem c2_amended_witness :
    isExceptError (saveTranscription c2State exPath true true none) = true :=
  (c2_amended_subtitles c2State exPath true rfl rfl (Or.inl rfl)).1

end Audiotext
